import Mathlib

/-!
# Verification of pc-checker's update checker and system-test workers

Shallow embedding of the logic in `update_manager.py` (class `UpdateChecker`)
and `system_tests.py` (the CPU stress monitor, memory test, disk speed test
and charging test worker threads), together with theorems settling the
claims about them.

Modelling conventions:
* Network effects are inputs: the connectivity probe result and the HTTP
  response (or request exception) are parameters of `UpdateManager.run`.
* Each worker thread reads the shared `self.is_testing` flag once per loop
  check; we model the successive reads as a function `testing : Nat → Bool`
  consulted at an incrementing tick.  Battery samples, CPU usage samples and
  memory block contents are likewise input functions.
* Python `float` battery percentages and elapsed times are modelled as exact
  rationals; `int(x)` truncation is floor for the non-negative values that
  arise (`pyInt` keeps the toward-zero behaviour for generality).
* Signal emission (`emit`) and callback invocation are recorded in the
  returned value / trace rather than performed as effects.
-/

namespace PcChecker

/-! ## update_manager.py — UpdateChecker -/

namespace UpdateManager

/-- Python `str.lstrip` with argument `v`: drop every leading ('v') character. -/
def lstripV (s : String) : String :=
  String.mk (s.data.dropWhile (fun c => c = 'v'))

/-- Parse one dot-separated numeric component of a version string. -/
def parseNumField (cs : List Char) : Option Nat :=
  if cs ≠ [] ∧ cs.all Char.isDigit then
    some (cs.foldl (fun acc c => acc * 10 + (c.toNat - 48)) 0)
  else none

/-- Split a character list on `'.'` (the behaviour of `"…".split('.')`
on the dot-separated version strings handled here). -/
def splitOnDot : List Char → List (List Char)
  | [] => [[]]
  | c :: rest =>
      match splitOnDot rest with
      | [] => [[]]
      | h :: t => if c = '.' then [] :: h :: t else (c :: h) :: t

/-- Function `packaging.version.parse` restricted to plain release versions:
dot-separated decimal numerals.  Anything else raises `InvalidVersion`
in Python, modelled by `none`. -/
def parseVersion (s : String) : Option (List Nat) :=
  (splitOnDot s.data).mapM parseNumField

/-- PEP 440 comparison of release tuples: componentwise, with the shorter
tuple padded with zeros (so `1.0` equals `1.0.0`). -/
def versionCompare : List Nat → List Nat → Ordering
  | [], [] => Ordering.eq
  | [], y :: ys => if 0 < y then Ordering.lt else versionCompare [] ys
  | x :: xs, [] => if 0 < x then Ordering.gt else versionCompare xs []
  | x :: xs, y :: ys =>
      if x < y then Ordering.lt
      else if y < x then Ordering.gt
      else versionCompare xs ys
termination_by a b => a.length + b.length

/-- Comparison `packaging.version.parse a > packaging.version.parse b` on release tuples. -/
def versionGT (a b : List Nat) : Bool :=
  versionCompare a b == Ordering.gt

/-- The portion of the GitHub release JSON that `UpdateChecker.run` reads
before emitting a signal (`tag_name` defaults to the empty string when absent). -/
structure GithubResponse where
  status_code : Nat
  tag_name : String
deriving DecidableEq

/-- The `requests` exceptions caught by `UpdateChecker.run`. -/
inductive RequestsError where
  | connectionError : RequestsError
  | timeout : RequestsError
  | requestException (msg : String) : RequestsError
deriving DecidableEq

/-- The one signal emitted by a run of `UpdateChecker.run`
(`update_available` carries the stripped latest-version string). -/
inductive UpdateSignal where
  | update_available (version : String) : UpdateSignal
  | update_not_available : UpdateSignal
  | error_occurred (msg : String) : UpdateSignal
deriving DecidableEq

/-- Method `UpdateChecker.run` (update_manager.py lines 34-90).  Inputs:
`current_version` (constructor argument), `connectionAvailable` (result of
`_test_internet_connection`), and `response` (the `requests.get` outcome:
either a caught exception or a response object).  Returns the emitted
signal. -/
def run (current_version : String) (connectionAvailable : Bool)
    (response : Except RequestsError GithubResponse) : UpdateSignal :=
  if ¬connectionAvailable then
    UpdateSignal.error_occurred "No internet connection"
  else
    match response with
    | Except.error RequestsError.connectionError =>
        UpdateSignal.error_occurred "No internet connection"
    | Except.error RequestsError.timeout =>
        UpdateSignal.error_occurred "GitHub API timeout - please try again"
    | Except.error (RequestsError.requestException e) =>
        UpdateSignal.error_occurred ("Failed to connect to GitHub: " ++ e)
    | Except.ok resp =>
        if resp.status_code = 404 then
          UpdateSignal.error_occurred "Repository not found - please check the repository URL"
        else if resp.status_code = 403 then
          UpdateSignal.error_occurred "API rate limit exceeded - please try again later"
        else if resp.status_code ≠ 200 then
          UpdateSignal.error_occurred ("GitHub API error: HTTP " ++ toString resp.status_code)
        else
          let latest_version := lstripV resp.tag_name
          if latest_version = "" then
            UpdateSignal.error_occurred "Invalid version information from GitHub"
          else
            match parseVersion latest_version, parseVersion current_version with
            | some lv, some cv =>
                if versionGT lv cv then
                  UpdateSignal.update_available latest_version
                else
                  UpdateSignal.update_not_available
            | none, _ =>
                UpdateSignal.error_occurred
                  ("Version comparison error: Invalid version: " ++ latest_version)
            | some _, none =>
                UpdateSignal.error_occurred
                  ("Version comparison error: Invalid version: " ++ current_version)

end UpdateManager

/-! ## system_tests.py — charging test (charging_test_worker) -/

namespace SystemTests

/-- One reading of `psutil.sensors_battery()`. -/
structure BatterySample where
  power_plugged : Bool
  percent : ℚ
deriving DecidableEq

/-- An entry of the `charging_events` list of `results`. -/
structure ChargingEvent where
  event : String
  battery_level : ℚ
  charging_state : Bool
deriving DecidableEq

/-- An entry of the `battery_level_changes` list of `results`. -/
structure LevelChange where
  old_level : ℚ
  new_level : ℚ
  change : ℚ
  charging : Bool
deriving DecidableEq

/-- The mutable state threaded through the 60-second monitoring loop. -/
structure ChargingState where
  last_charging_state : Bool
  last_battery_level : ℚ
  charging_events : List ChargingEvent
  battery_level_changes : List LevelChange
  progress : Nat
deriving DecidableEq

/-- Constant `monitor_duration = 60` (system_tests.py line 659). -/
def monitor_duration : Nat := 60

/-- Constant `check_interval = 2` (system_tests.py line 660). -/
def check_interval : Nat := 2

/-- Constant `checks_total = monitor_duration // check_interval` (line 661). -/
def checks_total : Nat := monitor_duration / check_interval

/-- One iteration body of the charging monitoring loop (lines 671-708):
record a charging event when `power_plugged` differs from the last recorded
state, record a level change when the level moved by at least 1%, and set
`results.progress = int((check+1)/checks_total*100)`. -/
def chargingStep (checksTotal check : Nat) (b : BatterySample)
    (s : ChargingState) : ChargingState :=
  let s1 :=
    if b.power_plugged ≠ s.last_charging_state then
      { s with
        charging_events := s.charging_events ++
          [{ event := if b.power_plugged then "plugged_in" else "unplugged",
             battery_level := b.percent,
             charging_state := b.power_plugged }],
        last_charging_state := b.power_plugged }
    else s
  let s2 :=
    if 1 ≤ |b.percent - s1.last_battery_level| then
      { s1 with
        battery_level_changes := s1.battery_level_changes ++
          [{ old_level := s1.last_battery_level,
             new_level := b.percent,
             change := b.percent - s1.last_battery_level,
             charging := b.power_plugged }],
        last_battery_level := b.percent }
    else s1
  { s2 with progress := (check + 1) * 100 / checksTotal }

/-- What one executed loop iteration observably does: it samples both
`battery.power_plugged` and `battery.percent`, sets progress, and sleeps
`check_interval` seconds (line 717). -/
structure IterationRecord where
  sampled_plugged : Bool
  sampled_percent : ℚ
  progress : Nat
  sleep_seconds : Nat
deriving DecidableEq

/-- The `for check in range(checks_total)` loop (lines 667-717):
`samples check` is the battery reading of iteration `check`, and
`running check` the value of `self.is_testing` read at the top of that
iteration (`break` on `False`).  Returns the final state and the trace of
executed iterations. -/
def monitorLoop (samples : Nat → BatterySample) (running : Nat → Bool)
    (checksTotal : Nat) : List Nat → ChargingState → ChargingState × List IterationRecord
  | [], s => (s, [])
  | check :: rest, s =>
    if running check then
      let b := samples check
      let s' := chargingStep checksTotal check b s
      let r := monitorLoop samples running checksTotal rest s'
      (r.1, { sampled_plugged := b.power_plugged,
              sampled_percent := b.percent,
              progress := (check + 1) * 100 / checksTotal,
              sleep_seconds := check_interval } :: r.2)
    else (s, [])

/-- The part of the `results` dict of `charging_test` that the claims
inspect, plus the trace of polling iterations performed. -/
structure ChargingResults where
  battery_support : Bool
  initial_charging_state : Option Bool
  initial_battery_level : Option ℚ
  charging_events : List ChargingEvent
  battery_level_changes : List LevelChange
  charging_events_detected : Nat
  battery_level_changes_detected : Nat
  status : String
  progress : Nat
  errors : List String
  polling_trace : List IterationRecord
deriving DecidableEq

/-- Function `charging_test_worker` (system_tests.py lines 620-760), exceptions
aside.  `battery` is the initial `psutil.sensors_battery()` reading
(`none` models Python `None`), `samples` the readings inside the loop, and
`running` the successive reads of `self.is_testing`. -/
def charging_test (battery : Option BatterySample)
    (samples : Nat → BatterySample) (running : Nat → Bool) : ChargingResults :=
  match battery with
  | none =>
      { battery_support := false
        initial_charging_state := none
        initial_battery_level := none
        charging_events := []
        battery_level_changes := []
        charging_events_detected := 0
        battery_level_changes_detected := 0
        status := "Completed"
        progress := 100
        errors := ["No battery detected - this test requires a laptop/device with battery"]
        polling_trace := [] }
  | some b =>
      let s0 : ChargingState :=
        { last_charging_state := b.power_plugged
          last_battery_level := b.percent
          charging_events := []
          battery_level_changes := []
          progress := 0 }
      let r := monitorLoop samples running checks_total (List.range checks_total) s0
      { battery_support := true
        initial_charging_state := some b.power_plugged
        initial_battery_level := some b.percent
        charging_events := r.1.charging_events
        battery_level_changes := r.1.battery_level_changes
        charging_events_detected := r.1.charging_events.length
        battery_level_changes_detected := r.1.battery_level_changes.length
        status := if (List.range checks_total).all running then "Completed" else "Stopped"
        progress := 100
        errors := []
        polling_trace := r.2 }

/-! ## system_tests.py — memory test (memory_test_worker) -/

/-- Mutable state of `memory_test_worker`.  `tick` counts the reads of
`self.is_testing`; `blocks` is the `memory_blocks` list (each block the
byte contents, one `Nat` per byte); the two traces collect the successive
values assigned to the `progress` entry of `results` in each phase. -/
structure MemState where
  tick : Nat
  blocks : List (List Nat)
  blocks_tested : Nat
  errors_found : Nat
  progress : Nat
  alloc_trace : List Nat
  verify_trace : List Nat
deriving DecidableEq

/-- Allocation loop of `memory_test_worker` (lines 138-161):
`for i in range(num_blocks)`, break when `self.is_testing` is false,
append a fresh block, set `blocks_tested = i + 1` and
`progress = int((i+1)/num_blocks*50)`. -/
def memAlloc (testing : Nat → Bool) (data : Nat → List Nat) (numBlocks : Nat) :
    List Nat → MemState → MemState
  | [], st => st
  | i :: rest, st =>
    if testing st.tick then
      let block := data i
      let p := (i + 1) * 50 / numBlocks
      memAlloc testing data numBlocks rest
        { st with
          tick := st.tick + 1
          blocks := st.blocks ++ [block]
          blocks_tested := i + 1
          progress := p
          alloc_trace := st.alloc_trace ++ [p] }
    else { st with tick := st.tick + 1 }

/-- Verification loop of `memory_test_worker` (lines 164-183):
`for i, block in enumerate(memory_blocks)`, break when `self.is_testing`
is false, compute `checksum = sum(block) % 256`, increment `errors_found`
when `checksum != sum(block) % 256`, and set
`progress = int(50 + (i+1)/len(memory_blocks)*50)`.  `i` is the enumerate
counter and `numBlocksLen` is `len(memory_blocks)`. -/
def memVerify (testing : Nat → Bool) (numBlocksLen : Nat) :
    Nat → List (List Nat) → MemState → MemState
  | _, [], st => st
  | i, block :: rest, st =>
    if testing st.tick then
      let checksum := block.sum % 256
      let e := if checksum ≠ block.sum % 256 then st.errors_found + 1 else st.errors_found
      let p := 50 + (i + 1) * 50 / numBlocksLen
      memVerify testing numBlocksLen (i + 1) rest
        { st with
          tick := st.tick + 1
          errors_found := e
          progress := p
          verify_trace := st.verify_trace ++ [p] }
    else { st with tick := st.tick + 1 }

/-- The fields of the memory test's `results` dict the claims inspect. -/
structure MemResults where
  blocks_tested : Nat
  errors_found : Nat
  progress : Nat
  status : String
  alloc_progress_trace : List Nat
  verify_progress_trace : List Nat
deriving DecidableEq

/-- Function `memory_test_worker` (system_tests.py lines 131-201), exceptions aside:
allocation phase, verification phase, then `progress = 100` and
`status` set to `Completed` when `self.is_testing` is still true and to `Stopped` otherwise.  `data i` is the
random contents of the `i`-th 1MB block. -/
def memory_test (testing : Nat → Bool) (data : Nat → List Nat)
    (test_size_mb : Nat) : MemResults :=
  let st0 : MemState :=
    { tick := 0, blocks := [], blocks_tested := 0, errors_found := 0
      progress := 0, alloc_trace := [], verify_trace := [] }
  let st1 := memAlloc testing data test_size_mb (List.range test_size_mb) st0
  let st2 := memVerify testing st1.blocks.length 0 st1.blocks st1
  { blocks_tested := st2.blocks_tested
    errors_found := st2.errors_found
    progress := 100
    status := if testing st2.tick then "Completed" else "Stopped"
    alloc_progress_trace := st2.alloc_trace
    verify_progress_trace := st2.verify_trace }

/-! ## system_tests.py — disk speed test (disk_test_worker) -/

/-- One executed chunk iteration of the disk test: which phase it belongs
to, the progress value assigned, and whether the progress callback was
invoked (`(i+1) % 5 == 0 or i == test_file_size_mb - 1`). -/
structure DiskStep where
  phase : String
  progress : Nat
  callback_invoked : Bool
deriving DecidableEq

/-- Loop state of the disk test: `tick` counts reads of `self.is_testing`,
`steps` the executed chunk iterations. -/
structure DiskState where
  tick : Nat
  progress : Nat
  steps : List DiskStep
deriving DecidableEq

/-- One phase of `disk_test_worker` (write: lines 239-252 with
`progress = int((i+1)/n*50)`; read: lines 262-275 with
`progress = int(50 + (i+1)/n*50)`, i.e. `base = 50`):
`for i in range(test_file_size_mb)`, break when `self.is_testing` is
false, set progress and invoke the callback after every 5th chunk or the
final chunk. -/
def diskLoop (testing : Nat → Bool) (n : Nat) (phase : String) (base : Nat) :
    List Nat → DiskState → DiskState
  | [], st => st
  | i :: rest, st =>
    if testing st.tick then
      let p := base + (i + 1) * 50 / n
      let cb := ((i + 1) % 5 == 0) || (i == n - 1)
      diskLoop testing n phase base rest
        { tick := st.tick + 1
          progress := p
          steps := st.steps ++ [{ phase := phase, progress := p, callback_invoked := cb }] }
    else { st with tick := st.tick + 1 }

/-- The fields of the disk test's `results` dict the claims inspect,
plus the trace of chunk iterations. -/
structure DiskResults where
  progress : Nat
  status : String
  steps : List DiskStep
deriving DecidableEq

/-- Function `disk_test_worker` (system_tests.py lines 222-307), exceptions aside:
the write loop runs first, then the read loop over the same file, then
`status` and `progress = 100` are set. -/
def disk_speed_test (testing : Nat → Bool) (test_file_size_mb : Nat) : DiskResults :=
  let st0 : DiskState := { tick := 0, progress := 0, steps := [] }
  let st1 := diskLoop testing test_file_size_mb "write" 0 (List.range test_file_size_mb) st0
  let st2 := diskLoop testing test_file_size_mb "read" 50 (List.range test_file_size_mb) st1
  { progress := 100
    status := if testing st2.tick then "Completed" else "Stopped"
    steps := st2.steps }

/-! ## system_tests.py — CPU stress test monitor (monitor_worker) -/

/-- Python `int(x)` truncation toward zero on an exact rational. -/
def pyInt (x : ℚ) : Int :=
  if 0 ≤ x then ⌊x⌋ else ⌈x⌉

/-- One observation at the top of the while loop of `monitor_worker`:
`elapsed = time.time() - start_time` and the `psutil.cpu_percent` sample
taken in that iteration. -/
structure CpuObs where
  elapsed : ℚ
  usage : ℚ
deriving DecidableEq

/-- Loop state of `monitor_worker`. -/
structure CpuState where
  tick : Nat
  sample_count : Nat
  total_usage : ℚ
  max_usage : ℚ
  progress : Int
  progress_trace : List Int
deriving DecidableEq

/-- The `while time.time() - start_time < duration and self.is_testing`
loop of `monitor_worker` (lines 56-90): each executed iteration sets
`progress = min(int(elapsed/duration*100), 100)`, accumulates the usage
sample, and updates `max_usage`. -/
def cpuMonitorLoop (testing : Nat → Bool) (duration : ℚ) :
    List CpuObs → CpuState → CpuState
  | [], st => st
  | o :: rest, st =>
    if o.elapsed < duration ∧ testing st.tick then
      let p : Int := min (pyInt (o.elapsed / duration * 100)) 100
      cpuMonitorLoop testing duration rest
        { tick := st.tick + 1
          sample_count := st.sample_count + 1
          total_usage := st.total_usage + o.usage
          max_usage := if st.max_usage < o.usage then o.usage else st.max_usage
          progress := p
          progress_trace := st.progress_trace ++ [p] }
    else { st with tick := st.tick + 1 }

/-- The fields of the CPU stress test's `results` dict the claims
inspect. -/
structure CpuResults where
  avg_usage : ℚ
  max_usage : ℚ
  progress : Int
  status : String
  progress_trace : List Int
deriving DecidableEq

/-- Function `monitor_worker` (system_tests.py lines 51-99): the monitoring loop,
then `avg_usage`, `progress = 100` and
`status` set to `Completed` when `self.is_testing` is still true and to `Stopped` otherwise. -/
def cpu_stress_test (testing : Nat → Bool) (duration : ℚ)
    (obs : List CpuObs) : CpuResults :=
  let st0 : CpuState :=
    { tick := 0, sample_count := 0, total_usage := 0, max_usage := 0
      progress := 0, progress_trace := [] }
  let st := cpuMonitorLoop testing duration obs st0
  { avg_usage := if 0 < st.sample_count then st.total_usage / st.sample_count else 0
    max_usage := st.max_usage
    progress := 100
    status := if testing st.tick then "Completed" else "Stopped"
    progress_trace := st.progress_trace }

end SystemTests

/-! ## Theorems -/

namespace UpdateManager

/-- C1.  For every run of `UpdateChecker` in which the GitHub API
request returns HTTP 200 and the release has a non-empty tag (parsing to
release tuples `lv` for the latest and `cv` for the current version), the
`update_available` signal is emitted if and only if the parsed latest
version is strictly greater than the parsed current version; otherwise
`update_not_available` is emitted, and an equal version never triggers an
update. -/
theorem run_update_available_iff_newer (current : String) (conn : Bool)
    (r : GithubResponse) (lv cv : List Nat)
    (hconn : conn = true) (hstatus : r.status_code = 200)
    (htag : lstripV r.tag_name ≠ "")
    (hlv : parseVersion (lstripV r.tag_name) = some lv)
    (hcv : parseVersion current = some cv) :
    ((run current conn (Except.ok r) =
        UpdateSignal.update_available (lstripV r.tag_name)) ↔
      versionCompare lv cv = Ordering.gt) ∧
    (versionCompare lv cv ≠ Ordering.gt →
      run current conn (Except.ok r) = UpdateSignal.update_not_available) ∧
    (versionCompare lv cv = Ordering.eq →
      run current conn (Except.ok r) = UpdateSignal.update_not_available) := by
  subst hconn
  have hrun : run current true (Except.ok r) =
      (if versionGT lv cv = true then
         UpdateSignal.update_available (lstripV r.tag_name)
       else UpdateSignal.update_not_available) := by
    unfold run
    rw [if_neg (by simp)]
    dsimp only
    rw [hstatus, if_neg (by decide), if_neg (by decide), if_neg (by decide),
      if_neg htag, hlv, hcv]
  rw [hrun]
  unfold versionGT
  rcases h : versionCompare lv cv with _ | _ | _ <;> simp [h] <;> decide

/-- Witness for `run_update_available_iff_newer`: current version `1.0.0`,
release tag `v1.2.0` (HTTP 200). -/
theorem run_update_available_iff_newer_witness :
    (run "1.0.0" true (Except.ok ⟨200, "v1.2.0"⟩) =
        UpdateSignal.update_available (lstripV "v1.2.0")) ↔
      versionCompare [1, 2, 0] [1, 0, 0] = Ordering.gt :=
  (run_update_available_iff_newer "1.0.0" true ⟨200, "v1.2.0"⟩ [1, 2, 0] [1, 0, 0]
    rfl rfl (by decide) (by decide) (by decide)).1

/-- C5.  Every execution of `UpdateChecker.run` emits exactly one of
the three signals `update_available`, `update_not_available`,
`error_occurred`; HTTP 404 yields the repository-not-found error, HTTP 403
the rate-limit error, any other non-200 status a GitHub API error message,
failed connectivity yields `"No internet connection"`, and in every error
case neither update signal is emitted. -/
theorem run_error_cases (current : String) (conn : Bool)
    (response : Except RequestsError GithubResponse) :
    ((∃ v, run current conn response = UpdateSignal.update_available v) ∨
      run current conn response = UpdateSignal.update_not_available ∨
      (∃ m, run current conn response = UpdateSignal.error_occurred m)) ∧
    (conn = false →
      run current conn response = UpdateSignal.error_occurred "No internet connection") ∧
    (∀ r, conn = true → response = Except.ok r → r.status_code = 404 →
      run current conn response =
        UpdateSignal.error_occurred "Repository not found - please check the repository URL") ∧
    (∀ r, conn = true → response = Except.ok r → r.status_code = 403 →
      run current conn response =
        UpdateSignal.error_occurred "API rate limit exceeded - please try again later") ∧
    (∀ r, conn = true → response = Except.ok r →
      r.status_code ≠ 404 → r.status_code ≠ 403 → r.status_code ≠ 200 →
      run current conn response =
        UpdateSignal.error_occurred ("GitHub API error: HTTP " ++ toString r.status_code)) ∧
    (∀ m, run current conn response = UpdateSignal.error_occurred m →
      (∀ v, run current conn response ≠ UpdateSignal.update_available v) ∧
      run current conn response ≠ UpdateSignal.update_not_available) := by
  refine ⟨?_, ?_, ?_, ?_, ?_, ?_⟩
  · rcases hr : run current conn response with v | _ | m
    · exact Or.inl ⟨v, rfl⟩
    · exact Or.inr (Or.inl rfl)
    · exact Or.inr (Or.inr ⟨m, rfl⟩)
  · intro hc; subst hc; rfl
  · rintro r rfl rfl h404
    unfold run
    rw [if_neg (by simp)]
    dsimp only
    rw [if_pos h404]
  · rintro r rfl rfl h403
    unfold run
    rw [if_neg (by simp)]
    dsimp only
    rw [if_neg (by simp [h403]), if_pos h403]
  · rintro r rfl rfl h404 h403 h200
    unfold run
    rw [if_neg (by simp)]
    dsimp only
    rw [if_neg h404, if_neg h403, if_pos h200]
  · intro m hm
    rw [hm]
    exact ⟨fun v h => by simp at h, fun h => by simp at h⟩

/-- Witness for `run_error_cases`: failed connectivity at a concrete
input yields the no-internet error. -/
theorem run_error_cases_witness :
    run "1.0.0" false (Except.ok ⟨200, "v1.2.0"⟩) =
      UpdateSignal.error_occurred "No internet connection" :=
  (run_error_cases "1.0.0" false (Except.ok ⟨200, "v1.2.0"⟩)).2.1 rfl

end UpdateManager

namespace SystemTests

/-- When both the charging state and the battery level of the sample agree
with the recorded state, one loop iteration only advances progress. -/
theorem chargingStep_same (ct ck : Nat) (b : BatterySample) (s : ChargingState)
    (h1 : s.last_charging_state = b.power_plugged)
    (h2 : s.last_battery_level = b.percent) :
    chargingStep ct ck b s = { s with progress := (ck + 1) * 100 / ct } := by
  have hc : ¬(b.power_plugged ≠ s.last_charging_state) := by simp [h1]
  have hl : ¬(1 ≤ |b.percent - s.last_battery_level|) := by
    rw [h2, sub_self, abs_zero]
    norm_num
  unfold chargingStep
  dsimp only
  rw [if_neg hc, if_neg hl]

/-- An iteration whose sample agrees with the recorded charging state
appends no charging event, and the recorded state afterwards equals the
sample. -/
theorem chargingStep_eq_case (ct ck : Nat) (b : BatterySample) (s : ChargingState)
    (h : b.power_plugged = s.last_charging_state) :
    (chargingStep ct ck b s).charging_events = s.charging_events ∧
    (chargingStep ct ck b s).last_charging_state = b.power_plugged := by
  have hc : ¬(b.power_plugged ≠ s.last_charging_state) := by simp [h]
  unfold chargingStep
  dsimp only
  rw [if_neg hc]
  constructor
  · split <;> rfl
  · split <;> exact h.symm

/-- An iteration whose sample differs from the recorded charging state
appends exactly one labeled charging event, and the recorded state
afterwards equals the sample. -/
theorem chargingStep_ne_case (ct ck : Nat) (b : BatterySample) (s : ChargingState)
    (h : b.power_plugged ≠ s.last_charging_state) :
    (chargingStep ct ck b s).charging_events = s.charging_events ++
      [{ event := if b.power_plugged then "plugged_in" else "unplugged",
         battery_level := b.percent,
         charging_state := b.power_plugged }] ∧
    (chargingStep ct ck b s).last_charging_state = b.power_plugged := by
  unfold chargingStep
  dsimp only
  rw [if_pos h]
  constructor
  · split <;> split <;> rfl
  · split <;> split <;> rfl

/-- A run of the monitoring loop in which `self.is_testing` stays true
executes one iteration per planned check, each sampling both
`power_plugged` and `percent` of that check's battery reading, setting
progress, and sleeping `check_interval` seconds. -/
theorem monitorLoop_trace_all_running (samples : Nat → BatterySample)
    (running : Nat → Bool) (ct : Nat) (l : List Nat)
    (h : ∀ k ∈ l, running k = true) :
    ∀ s, (monitorLoop samples running ct l s).2 =
      l.map (fun c =>
        { sampled_plugged := (samples c).power_plugged,
          sampled_percent := (samples c).percent,
          progress := (c + 1) * 100 / ct,
          sleep_seconds := check_interval }) := by
  induction l with
  | nil => intro s; rfl
  | cons c rest ih =>
    intro s
    unfold monitorLoop
    rw [if_pos (h c (List.mem_cons_self c rest))]
    dsimp only
    rw [ih (fun k hk => h k (List.mem_cons_of_mem c hk)), List.map_cons]

/-- A run of the monitoring loop over samples that all equal the recorded
state records no charging events and no battery level changes. -/
theorem monitorLoop_constant (b : BatterySample) (samples : Nat → BatterySample)
    (running : Nat → Bool) (ct : Nat) (l : List Nat)
    (hs : ∀ k ∈ l, samples k = b) :
    ∀ s, s.last_charging_state = b.power_plugged → s.last_battery_level = b.percent →
      (monitorLoop samples running ct l s).1.charging_events = s.charging_events ∧
      (monitorLoop samples running ct l s).1.battery_level_changes =
        s.battery_level_changes := by
  induction l with
  | nil => intro s _ _; exact ⟨rfl, rfl⟩
  | cons c rest ih =>
    intro s h1 h2
    unfold monitorLoop
    by_cases hr : running c = true
    · rw [if_pos hr]
      dsimp only
      rw [hs c (List.mem_cons_self c rest), chargingStep_same ct c b s h1 h2]
      exact ih (fun k hk => hs k (List.mem_cons_of_mem c hk))
        { s with progress := (c + 1) * 100 / ct } h1 h2
    · rw [if_neg hr]
      exact ⟨rfl, rfl⟩

/-- C2.  The charging-state monitor polls every 2 seconds for 60
seconds: a run that is not stopped early performs exactly
`monitor_duration / check_interval = 30` sampling iterations, each
sampling `battery.power_plugged` and `battery.percent` of that iteration's
reading and then sleeping 2 seconds. -/
theorem charging_monitor_thirty_iterations (samples : Nat → BatterySample)
    (running : Nat → Bool) (s0 : ChargingState)
    (h : ∀ k, k < checks_total → running k = true) :
    checks_total = monitor_duration / check_interval ∧ checks_total = 30 ∧
    (monitorLoop samples running checks_total (List.range checks_total) s0).2 =
      (List.range 30).map (fun c =>
        { sampled_plugged := (samples c).power_plugged,
          sampled_percent := (samples c).percent,
          progress := (c + 1) * 100 / checks_total,
          sleep_seconds := 2 }) := by
  refine ⟨rfl, rfl, ?_⟩
  rw [monitorLoop_trace_all_running samples running checks_total
    (List.range checks_total) (fun k hk => h k (List.mem_range.mp hk)) s0]
  rfl

/-- Witness for `charging_monitor_thirty_iterations`: a run with
`is_testing` constantly true and a constant plugged-in battery at 80%. -/
theorem charging_monitor_thirty_iterations_witness :
    (monitorLoop (fun _ => { power_plugged := true, percent := 80 })
        (fun _ => true) checks_total (List.range checks_total)
        { last_charging_state := true, last_battery_level := 80,
          charging_events := [], battery_level_changes := [], progress := 0 }).2 =
      (List.range 30).map (fun c =>
        { sampled_plugged := true, sampled_percent := 80,
          progress := (c + 1) * 100 / checks_total, sleep_seconds := 2 }) :=
  (charging_monitor_thirty_iterations (fun _ => { power_plugged := true, percent := 80 })
    (fun _ => true)
    { last_charging_state := true, last_battery_level := 80,
      charging_events := [], battery_level_changes := [], progress := 0 }
    (fun _ _ => rfl)).2.2

/-- C4.  In every iteration of the charging monitor, an entry is
appended to `charging_events` if and only if the sampled `power_plugged`
value differs from the previously recorded state; the event is labeled
`plugged_in` when the new state is plugged and `unplugged` otherwise, and
the recorded last state afterwards equals the new sample, so consecutive
identical samples record nothing. -/
theorem charging_event_iff_state_change (ct ck : Nat) (b : BatterySample)
    (s : ChargingState) :
    ((chargingStep ct ck b s).charging_events =
      if b.power_plugged = s.last_charging_state then s.charging_events
      else s.charging_events ++
        [{ event := if b.power_plugged then "plugged_in" else "unplugged",
           battery_level := b.percent,
           charging_state := b.power_plugged }]) ∧
    (chargingStep ct ck b s).last_charging_state = b.power_plugged := by
  by_cases h : b.power_plugged = s.last_charging_state
  · rw [if_pos h]
    exact chargingStep_eq_case ct ck b s h
  · rw [if_neg h]
    exact chargingStep_ne_case ct ck b s h

/-- One unfolding step of the monitoring loop when `self.is_testing` is
still true at the head check. -/
theorem monitorLoop_cons_true (samples : Nat → BatterySample)
    (running : Nat → Bool) (ct c : Nat) (rest : List Nat) (s : ChargingState)
    (h : running c = true) :
    monitorLoop samples running ct (c :: rest) s =
      ((monitorLoop samples running ct rest (chargingStep ct c (samples c) s)).1,
       { sampled_plugged := (samples c).power_plugged,
         sampled_percent := (samples c).percent,
         progress := (c + 1) * 100 / ct,
         sleep_seconds := check_interval } ::
         (monitorLoop samples running ct rest (chargingStep ct c (samples c) s)).2) := by
  show (if running c = true then _ else (s, [])) = _
  rw [if_pos h]

/-- Battery readings whose `power_plugged` flips to unplugged in exactly
the first 2-second sample and is plugged in every other sample. -/
def flipSamples : Nat → BatterySample :=
  fun i =>
    if i = 0 then { power_plugged := false, percent := 50 }
    else { power_plugged := true, percent := 50 }

/-- C3 counterexample.  There is no debouncing: a battery that starts
plugged in and shows unplugged in exactly one 2-second sample makes the
charging test record a spurious pair of `unplugged`/`plugged_in` events,
contradicting the claim that a transient one-sample flip never produces
such a pair. -/
theorem charging_transient_flip_records_pair :
    (charging_test (some { power_plugged := true, percent := 50 }) flipSamples
        (fun _ => true)).charging_events =
      [{ event := "unplugged", battery_level := 50, charging_state := false },
       { event := "plugged_in", battery_level := 50, charging_state := true }] := by
  have hrange : List.range checks_total =
      0 :: 1 :: (List.range 28).map (fun x => x + 2) := by decide
  have h0 : flipSamples 0 = { power_plugged := false, percent := 50 } := rfl
  have h1 : flipSamples 1 = { power_plugged := true, percent := 50 } := rfl
  have hstep0 : chargingStep checks_total 0 { power_plugged := false, percent := 50 }
      { last_charging_state := true, last_battery_level := 50,
        charging_events := [], battery_level_changes := [], progress := 0 } =
      { last_charging_state := false, last_battery_level := 50,
        charging_events :=
          [{ event := "unplugged", battery_level := 50, charging_state := false }],
        battery_level_changes := [], progress := 3 } := by
    norm_num [chargingStep, checks_total, monitor_duration, check_interval]
  have hstep1 : chargingStep checks_total 1 { power_plugged := true, percent := 50 }
      { last_charging_state := false, last_battery_level := 50,
        charging_events :=
          [{ event := "unplugged", battery_level := 50, charging_state := false }],
        battery_level_changes := [], progress := 3 } =
      { last_charging_state := true, last_battery_level := 50,
        charging_events :=
          [{ event := "unplugged", battery_level := 50, charging_state := false },
           { event := "plugged_in", battery_level := 50, charging_state := true }],
        battery_level_changes := [], progress := 6 } := by
    norm_num [chargingStep, checks_total, monitor_duration, check_interval]
  show (monitorLoop flipSamples (fun _ => true) checks_total (List.range checks_total)
      { last_charging_state := true, last_battery_level := 50,
        charging_events := [], battery_level_changes := [], progress := 0 }).1.charging_events = _
  rw [hrange, monitorLoop_cons_true _ _ _ _ _ _ rfl]
  dsimp only
  rw [h0, hstep0, monitorLoop_cons_true _ _ _ _ _ _ rfl]
  dsimp only
  rw [h1, hstep1]
  exact (monitorLoop_constant { power_plugged := true, percent := 50 } flipSamples
    (fun _ => true) checks_total ((List.range 28).map (fun x => x + 2))
    (fun k hk => by
      rcases List.mem_map.mp hk with ⟨x, _, rfl⟩
      simp [flipSamples])
    { last_charging_state := true, last_battery_level := 50,
      charging_events :=
        [{ event := "unplugged", battery_level := 50, charging_state := false },
         { event := "plugged_in", battery_level := 50, charging_state := true }],
      battery_level_changes := [], progress := 6 } rfl rfl).1

/-- C3 amended.  The charging monitor performs no debouncing: a
change in the sampled `power_plugged` state is recorded immediately after
a single differing sample, so a flip visible in exactly one sample
followed by a return to the previous state produces a spurious pair of
charging events. -/
theorem charging_no_debounce_two_steps (ct k1 k2 : Nat) (l1 l2 : ℚ)
    (s : ChargingState) :
    (chargingStep ct k2 { power_plugged := s.last_charging_state, percent := l2 }
        (chargingStep ct k1
          { power_plugged := !s.last_charging_state, percent := l1 } s)).charging_events =
      s.charging_events ++
        [{ event := if !s.last_charging_state then "plugged_in" else "unplugged",
           battery_level := l1, charging_state := !s.last_charging_state },
         { event := if s.last_charging_state then "plugged_in" else "unplugged",
           battery_level := l2, charging_state := s.last_charging_state }] := by
  obtain ⟨he1, hl1⟩ := chargingStep_ne_case ct k1
    { power_plugged := !s.last_charging_state, percent := l1 } s (by simp)
  obtain ⟨he2, _⟩ := chargingStep_ne_case ct k2
    { power_plugged := s.last_charging_state, percent := l2 }
    (chargingStep ct k1 { power_plugged := !s.last_charging_state, percent := l1 } s)
    (by rw [hl1]; simp)
  rw [he2, he1, List.append_assoc]
  rfl

/-- C10.  If `psutil.sensors_battery()` returns `None` at the start of
the charging test, the test ends immediately with no polling iterations,
status `Completed`, `battery_support = False`, progress 100, and the
explanatory message appended to the errors list. -/
theorem charging_no_battery_completes_immediately
    (samples : Nat → BatterySample) (running : Nat → Bool) :
    (charging_test none samples running).battery_support = false ∧
    (charging_test none samples running).status = "Completed" ∧
    (charging_test none samples running).progress = 100 ∧
    (charging_test none samples running).errors =
      ["No battery detected - this test requires a laptop/device with battery"] ∧
    (charging_test none samples running).polling_trace = [] :=
  ⟨rfl, rfl, rfl, rfl, rfl⟩

/-- The allocation loop never touches `errors_found`, whatever
`self.is_testing` does. -/
theorem memAlloc_errors_preserved (testing : Nat → Bool) (data : Nat → List Nat)
    (n : Nat) : ∀ (l : List Nat) (st : MemState),
    (memAlloc testing data n l st).errors_found = st.errors_found := by
  intro l
  induction l with
  | nil => intro st; rfl
  | cons i rest ih =>
    intro st
    simp only [memAlloc]
    by_cases h : testing st.tick = true
    · rw [if_pos h]; exact ih _
    · rw [if_neg h]

/-- The verification loop compares each block's checksum against the same
recomputed checksum, so it never increments `errors_found`, whatever
`self.is_testing` does. -/
theorem memVerify_errors_preserved (testing : Nat → Bool) (nLen : Nat) :
    ∀ (l : List (List Nat)) (i : Nat) (st : MemState),
    (memVerify testing nLen i l st).errors_found = st.errors_found := by
  intro l
  induction l with
  | nil => intro i st; rfl
  | cons b rest ih =>
    intro i st
    simp only [memVerify]
    by_cases h : testing st.tick = true
    · rw [if_pos h, ih]
      dsimp only
      rw [if_neg (by simp)]
    · rw [if_neg h]

/-- The verification loop never touches `blocks_tested`. -/
theorem memVerify_blocks_tested_preserved (testing : Nat → Bool) (nLen : Nat) :
    ∀ (l : List (List Nat)) (i : Nat) (st : MemState),
    (memVerify testing nLen i l st).blocks_tested = st.blocks_tested := by
  intro l
  induction l with
  | nil => intro i st; rfl
  | cons b rest ih =>
    intro i st
    simp only [memVerify]
    by_cases h : testing st.tick = true
    · rw [if_pos h, ih]
    · rw [if_neg h]

/-- Closed form of a full (never-stopped) run of the allocation loop. -/
theorem memAlloc_all_running (testing : Nat → Bool) (data : Nat → List Nat)
    (n : Nat) (h : ∀ t, testing t = true) :
    ∀ (l : List Nat) (st : MemState),
      memAlloc testing data n l st =
        { st with
          tick := st.tick + l.length
          blocks := st.blocks ++ l.map data
          blocks_tested := l.foldl (fun _ i => i + 1) st.blocks_tested
          progress := l.foldl (fun _ i => (i + 1) * 50 / n) st.progress
          alloc_trace := st.alloc_trace ++ l.map (fun i => (i + 1) * 50 / n) } := by
  intro l
  induction l with
  | nil => intro st; simp [memAlloc]
  | cons i rest ih =>
    intro st
    simp only [memAlloc]
    rw [if_pos (h st.tick), ih]
    simp [MemState.mk.injEq, List.append_assoc]
    omega

/-- Folding `fun _ i => i + 1` over `range n` computes `n` for positive
`n` (the final `blocks_tested = i + 1` assignment of the loop). -/
theorem foldl_range_last_succ (n d : Nat) :
    (List.range n).foldl (fun _ i => i + 1) d = if n = 0 then d else n := by
  cases n with
  | zero => rfl
  | succ m =>
    rw [List.range_succ, List.foldl_append]
    simp

/-- The verification loop never touches the allocation-phase trace. -/
theorem memVerify_alloc_trace_preserved (testing : Nat → Bool) (nLen : Nat) :
    ∀ (l : List (List Nat)) (i : Nat) (st : MemState),
    (memVerify testing nLen i l st).alloc_trace = st.alloc_trace := by
  intro l
  induction l with
  | nil => intro i st; rfl
  | cons b rest ih =>
    intro i st
    simp only [memVerify]
    by_cases h : testing st.tick = true
    · rw [if_pos h, ih]
    · rw [if_neg h]

/-- The per-chunk progress value `int((i+1)/n*50)` never exceeds 50. -/
theorem chunk_progress_le_50 (i n : Nat) (h : i < n) : (i + 1) * 50 / n ≤ 50 := by
  have hn : 0 < n := by omega
  calc (i + 1) * 50 / n ≤ n * 50 / n := by
        apply Nat.div_le_div_right
        exact Nat.mul_le_mul_right 50 (by omega)
    _ = 50 := by rw [Nat.mul_comm, Nat.mul_div_cancel 50 hn]

/-- Full-run length of the verification trace. -/
theorem memVerify_trace_length_all_running (testing : Nat → Bool) (nLen : Nat)
    (h : ∀ t, testing t = true) :
    ∀ (l : List (List Nat)) (i : Nat) (st : MemState),
      (memVerify testing nLen i l st).verify_trace.length =
        st.verify_trace.length + l.length := by
  intro l
  induction l with
  | nil => intro i st; rfl
  | cons b rest ih =>
    intro i st
    simp only [memVerify]
    rw [if_pos (h st.tick), ih]
    simp
    omega

/-- Every entry of the verification-phase progress trace lies in
`[50, 100]`, for any stop pattern, as long as the enumerate counter plus
the remaining blocks stay within `len(memory_blocks)`. -/
theorem memVerify_trace_mem (testing : Nat → Bool) (nLen : Nat) :
    ∀ (l : List (List Nat)) (i : Nat) (st : MemState),
      i + l.length ≤ nLen →
      ∀ p ∈ (memVerify testing nLen i l st).verify_trace,
        p ∈ st.verify_trace ∨ (50 ≤ p ∧ p ≤ 100) := by
  intro l
  induction l with
  | nil => intro i st _ p hp; exact Or.inl hp
  | cons b rest ih =>
    intro i st hle p hp
    simp only [memVerify] at hp
    by_cases h : testing st.tick = true
    · rw [if_pos h] at hp
      have hstep : (i + 1) * 50 / nLen ≤ 50 :=
        chunk_progress_le_50 i nLen (by simp at hle; omega)
      have hlen : i + 1 + rest.length ≤ nLen := by
        simp at hle
        omega
      have hrec := ih (i + 1)
        { st with
          tick := st.tick + 1
          errors_found :=
            if b.sum % 256 ≠ b.sum % 256 then st.errors_found + 1 else st.errors_found
          progress := 50 + (i + 1) * 50 / nLen
          verify_trace := st.verify_trace ++ [50 + (i + 1) * 50 / nLen] }
        hlen p hp
      rcases hrec with hin | hbnd
      · dsimp only at hin
        rcases List.mem_append.mp hin with hin2 | hnew
        · exact Or.inl hin2
        · rw [List.mem_singleton.mp hnew]
          exact Or.inr ⟨Nat.le_add_right 50 _, by omega⟩
      · exact Or.inr hbnd
    · rw [if_neg h] at hp
      exact Or.inl hp

/-- C6.  A memory-test run that is not stopped early allocates
`test_size_mb` one-megabyte blocks (one allocation-phase progress value
per block, each in `[0, 50]`), then verifies every allocated block by
checksum (one verification-phase progress value per block, each in
`[50, 100]`), increments `errors_found` exactly for the blocks whose
`sum % 256` checksum mismatches the recomputed `sum % 256`, and ends with
`blocks_tested = test_size_mb`. -/
theorem memory_test_complete_run (testing : Nat → Bool) (data : Nat → List Nat)
    (n : Nat) (h : ∀ t, testing t = true) :
    (memory_test testing data n).blocks_tested = n ∧
    (memory_test testing data n).alloc_progress_trace =
      (List.range n).map (fun i => (i + 1) * 50 / n) ∧
    (∀ p ∈ (memory_test testing data n).alloc_progress_trace, p ≤ 50) ∧
    (memory_test testing data n).verify_progress_trace.length = n ∧
    (∀ p ∈ (memory_test testing data n).verify_progress_trace, 50 ≤ p ∧ p ≤ 100) ∧
    (memory_test testing data n).errors_found =
      ((List.range n).map data).countP
        (fun b => b.sum % 256 != b.sum % 256) := by
  have halloc := memAlloc_all_running testing data n h (List.range n)
    { tick := 0, blocks := [], blocks_tested := 0, errors_found := 0
      progress := 0, alloc_trace := [], verify_trace := [] }
  refine ⟨?_, ?_, ?_, ?_, ?_, ?_⟩
  · show (memVerify testing _ 0 _ _).blocks_tested = n
    rw [memVerify_blocks_tested_preserved, halloc]
    dsimp only
    rw [foldl_range_last_succ]
    split <;> omega
  · show (memVerify testing _ 0 _ _).alloc_trace = _
    rw [memVerify_alloc_trace_preserved, halloc]
    simp
  · intro p hp
    have htr : (memory_test testing data n).alloc_progress_trace =
        (List.range n).map (fun i => (i + 1) * 50 / n) := by
      show (memVerify testing _ 0 _ _).alloc_trace = _
      rw [memVerify_alloc_trace_preserved, halloc]
      simp
    rw [htr] at hp
    rcases List.mem_map.mp hp with ⟨i, hi, rfl⟩
    exact chunk_progress_le_50 i n (List.mem_range.mp hi)
  · show (memVerify testing _ 0 _ _).verify_trace.length = n
    rw [memVerify_trace_length_all_running testing _ h, halloc]
    simp
  · intro p hp
    have := memVerify_trace_mem testing
      (memAlloc testing data n (List.range n)
        { tick := 0, blocks := [], blocks_tested := 0, errors_found := 0
          progress := 0, alloc_trace := [], verify_trace := [] }).blocks.length
      (memAlloc testing data n (List.range n)
        { tick := 0, blocks := [], blocks_tested := 0, errors_found := 0
          progress := 0, alloc_trace := [], verify_trace := [] }).blocks 0 _
      (by omega) p hp
    rcases this with hin | hbnd
    · rw [halloc] at hin
      simp at hin
    · exact hbnd
  · show (memVerify testing _ 0 _ _).errors_found = _
    rw [memVerify_errors_preserved, memAlloc_errors_preserved]
    symm
    rw [List.countP_eq_zero]
    intro b _
    simp

/-- General form of the per-chunk progress bound:
`int((i+1)/n*k)` never exceeds `k`. -/
theorem chunk_progress_le (i n k : Nat) (h : i < n) : (i + 1) * k / n ≤ k := by
  have hn : 0 < n := by omega
  calc (i + 1) * k / n ≤ n * k / n := by
        apply Nat.div_le_div_right
        exact Nat.mul_le_mul_right k (by omega)
    _ = k := by rw [Nat.mul_comm, Nat.mul_div_cancel k hn]

/-- The allocation loop leaves the verification-phase trace untouched. -/
theorem memAlloc_verify_trace_preserved (testing : Nat → Bool)
    (data : Nat → List Nat) (n : Nat) : ∀ (l : List Nat) (st : MemState),
    (memAlloc testing data n l st).verify_trace = st.verify_trace := by
  intro l
  induction l with
  | nil => intro st; rfl
  | cons i rest ih =>
    intro st
    simp only [memAlloc]
    by_cases h : testing st.tick = true
    · rw [if_pos h, ih]
    · rw [if_neg h]

/-- Every entry of the allocation-phase progress trace lies in `[0, 50]`,
for any stop pattern. -/
theorem memAlloc_trace_mem (testing : Nat → Bool) (data : Nat → List Nat)
    (n : Nat) : ∀ (l : List Nat) (st : MemState), (∀ i ∈ l, i < n) →
    ∀ p ∈ (memAlloc testing data n l st).alloc_trace,
      p ∈ st.alloc_trace ∨ p ≤ 50 := by
  intro l
  induction l with
  | nil => intro st _ p hp; exact Or.inl hp
  | cons i rest ih =>
    intro st hl p hp
    simp only [memAlloc] at hp
    by_cases h : testing st.tick = true
    · rw [if_pos h] at hp
      have hrec := ih
        { st with
          tick := st.tick + 1
          blocks := st.blocks ++ [data i]
          blocks_tested := i + 1
          progress := (i + 1) * 50 / n
          alloc_trace := st.alloc_trace ++ [(i + 1) * 50 / n] }
        (fun j hj => hl j (List.mem_cons_of_mem i hj)) p hp
      rcases hrec with hin | hbnd
      · dsimp only at hin
        rcases List.mem_append.mp hin with h1 | h2
        · exact Or.inl h1
        · rw [List.mem_singleton.mp h2]
          exact Or.inr (chunk_progress_le_50 i n (hl i (List.mem_cons_self i rest)))
      · exact Or.inr hbnd
    · rw [if_neg h] at hp
      exact Or.inl hp

/-- C7.  The memory test's data-integrity check can never report a
corruption: the verification compares `sum(block) % 256` against itself,
so for every run (any contents, any stop pattern) in which no exception is
raised, `errors_found` is 0. -/
theorem memory_test_errors_always_zero (testing : Nat → Bool)
    (data : Nat → List Nat) (n : Nat) :
    (memory_test testing data n).errors_found = 0 := by
  show (memVerify testing _ 0 _ _).errors_found = 0
  rw [memVerify_errors_preserved, memAlloc_errors_preserved]

/-- Witness for `memory_test_complete_run`: a 3-block run with
`is_testing` constantly true ends with `blocks_tested = 3`. -/
theorem memory_test_complete_run_witness :
    (memory_test (fun _ => true) (fun _ => [1, 2, 3]) 3).blocks_tested = 3 :=
  (memory_test_complete_run (fun _ => true) (fun _ => [1, 2, 3]) 3 (fun _ => rfl)).1

/-- Closed form of a full (never-stopped) run of one disk-test phase. -/
theorem diskLoop_all_running (testing : Nat → Bool) (n : Nat) (phase : String)
    (base : Nat) (h : ∀ t, testing t = true) :
    ∀ (l : List Nat) (st : DiskState),
      (diskLoop testing n phase base l st).steps =
        st.steps ++ l.map (fun i =>
          { phase := phase, progress := base + (i + 1) * 50 / n,
            callback_invoked := ((i + 1) % 5 == 0) || (i == n - 1) }) := by
  intro l
  induction l with
  | nil => intro st; simp [diskLoop]
  | cons i rest ih =>
    intro st
    simp only [diskLoop]
    rw [if_pos (h st.tick), ih]
    simp [List.append_assoc]

/-- Every chunk record of one disk-test phase has progress at most
`base + 50`, for any stop pattern. -/
theorem diskLoop_steps_mem (testing : Nat → Bool) (n : Nat) (phase : String)
    (base : Nat) : ∀ (l : List Nat) (st : DiskState), (∀ i ∈ l, i < n) →
    ∀ s ∈ (diskLoop testing n phase base l st).steps,
      s ∈ st.steps ∨ s.progress ≤ base + 50 := by
  intro l
  induction l with
  | nil => intro st _ s hs; exact Or.inl hs
  | cons i rest ih =>
    intro st hl s hs
    simp only [diskLoop] at hs
    by_cases h : testing st.tick = true
    · rw [if_pos h] at hs
      have hrec := ih
        { tick := st.tick + 1
          progress := base + (i + 1) * 50 / n
          steps := st.steps ++
            [{ phase := phase, progress := base + (i + 1) * 50 / n,
               callback_invoked := ((i + 1) % 5 == 0) || (i == n - 1) }] }
        (fun j hj => hl j (List.mem_cons_of_mem i hj)) s hs
      rcases hrec with hin | hbnd
      · dsimp only at hin
        rcases List.mem_append.mp hin with h1 | h2
        · exact Or.inl h1
        · rw [List.mem_singleton.mp h2]
          dsimp only
          have := chunk_progress_le_50 i n (hl i (List.mem_cons_self i rest))
          exact Or.inr (by omega)
      · exact Or.inr hbnd
    · rw [if_neg h] at hs
      exact Or.inl hs

/-- C8.  In a complete disk-speed-test run, the sequential write phase
(one 1MB chunk per unit of `test_file_size_mb`) fully precedes the read
phase; write-phase progress values are `int((i+1)/n*50) ∈ [0, 50]`,
read-phase values `int(50+(i+1)/n*50) ∈ [50, 100]`; and in each phase the
chunk's callback flag is set exactly when `(i+1) % 5 == 0` or
`i == test_file_size_mb - 1`. -/
theorem disk_speed_test_write_then_read (testing : Nat → Bool) (n : Nat)
    (h : ∀ t, testing t = true) :
    (disk_speed_test testing n).steps =
      (List.range n).map (fun i =>
        { phase := "write", progress := (i + 1) * 50 / n,
          callback_invoked := ((i + 1) % 5 == 0) || (i == n - 1) }) ++
      (List.range n).map (fun i =>
        { phase := "read", progress := 50 + (i + 1) * 50 / n,
          callback_invoked := ((i + 1) % 5 == 0) || (i == n - 1) }) ∧
    (∀ i, i < n →
      (i + 1) * 50 / n ≤ 50 ∧
      50 ≤ 50 + (i + 1) * 50 / n ∧ 50 + (i + 1) * 50 / n ≤ 100) := by
  constructor
  · show (diskLoop testing n "read" 50 (List.range n) _).steps = _
    rw [diskLoop_all_running testing n "read" 50 h,
      diskLoop_all_running testing n "write" 0 h]
    simp
  · intro i hi
    have := chunk_progress_le_50 i n hi
    exact ⟨this, Nat.le_add_right 50 _, by omega⟩

/-- Witness for `disk_speed_test_write_then_read`: a complete 7MB run. -/
theorem disk_speed_test_write_then_read_witness :
    (disk_speed_test (fun _ => true) 7).steps =
      (List.range 7).map (fun i =>
        { phase := "write", progress := (i + 1) * 50 / 7,
          callback_invoked := ((i + 1) % 5 == 0) || (i == 7 - 1) }) ++
      (List.range 7).map (fun i =>
        { phase := "read", progress := 50 + (i + 1) * 50 / 7,
          callback_invoked := ((i + 1) % 5 == 0) || (i == 7 - 1) }) :=
  (disk_speed_test_write_then_read (fun _ => true) 7 (fun _ => rfl)).1

/-- Statuses: the expression in `results.status = Completed if self.is_testing else Stopped` always produces one of
the two terminal statuses. -/
theorem ite_completed_stopped (c : Prop) [Decidable c] :
    (if c then "Completed" else "Stopped") = "Completed" ∨
    (if c then "Completed" else "Stopped") = "Stopped" := by
  split
  · exact Or.inl rfl
  · exact Or.inr rfl

/-- Every progress value recorded by the CPU stress monitor loop is in
`[0, 100]` (for non-negative elapsed times and positive duration), for any
stop pattern. -/
theorem cpuMonitorLoop_trace_mem (testing : Nat → Bool) (duration : ℚ)
    (hd : 0 < duration) :
    ∀ (l : List CpuObs) (st : CpuState), (∀ o ∈ l, 0 ≤ o.elapsed) →
      ∀ p ∈ (cpuMonitorLoop testing duration l st).progress_trace,
        p ∈ st.progress_trace ∨ (0 ≤ p ∧ p ≤ 100) := by
  intro l
  induction l with
  | nil => intro st _ p hp; exact Or.inl hp
  | cons o rest ih =>
    intro st he p hp
    simp only [cpuMonitorLoop] at hp
    by_cases h : o.elapsed < duration ∧ testing st.tick = true
    · rw [if_pos h] at hp
      have hrec := ih
        { tick := st.tick + 1
          sample_count := st.sample_count + 1
          total_usage := st.total_usage + o.usage
          max_usage := if st.max_usage < o.usage then o.usage else st.max_usage
          progress := min (pyInt (o.elapsed / duration * 100)) 100
          progress_trace := st.progress_trace ++
            [min (pyInt (o.elapsed / duration * 100)) 100] }
        (fun q hq => he q (List.mem_cons_of_mem o hq)) p hp
      rcases hrec with hin | hbnd
      · dsimp only at hin
        rcases List.mem_append.mp hin with h1 | h2
        · exact Or.inl h1
        · rw [List.mem_singleton.mp h2]
          refine Or.inr ⟨?_, min_le_right _ _⟩
          have hx : (0 : ℚ) ≤ o.elapsed / duration * 100 := by
            have := he o (List.mem_cons_self o rest)
            positivity
          have hfl : 0 ≤ pyInt (o.elapsed / duration * 100) := by
            rw [pyInt, if_pos hx]
            exact Int.floor_nonneg.mpr hx
          exact le_min hfl (by norm_num)
      · exact Or.inr hbnd
    · rw [if_neg h] at hp
      exact Or.inl hp

/-- Every progress value recorded by the charging monitoring loop is at
most 100, for any stop pattern. -/
theorem monitorLoop_trace_mem (samples : Nat → BatterySample)
    (running : Nat → Bool) (ct : Nat) :
    ∀ (l : List Nat) (s : ChargingState), (∀ k ∈ l, k < ct) →
      ∀ r ∈ (monitorLoop samples running ct l s).2, r.progress ≤ 100 := by
  intro l
  induction l with
  | nil => intro s _ r hr; simp [monitorLoop] at hr
  | cons c rest ih =>
    intro s hl r hr
    simp only [monitorLoop] at hr
    by_cases h : running c = true
    · rw [if_pos h] at hr
      rcases List.mem_cons.mp hr with hhead | htail
      · rw [hhead]
        exact chunk_progress_le c ct 100 (hl c (List.mem_cons_self c rest))
      · exact ih _ (fun k hk => hl k (List.mem_cons_of_mem c hk)) r htail
    · rw [if_neg h] at hr
      simp at hr

/-- C9.  For every test maintaining a `progress` field (CPU stress,
memory, disk, charging), every recorded value of the `progress` entry of `results`
lies in `[0, 100]`, and when the test reaches its terminal
`Completed`/`Stopped` status, the final progress equals exactly 100
(the completion write of `progress = 100` and the status write
belong to the same terminal update of the results dict). -/
theorem progress_within_bounds_and_final
    (t1 t2 t3 t4 : Nat → Bool) (duration : ℚ) (obs : List CpuObs)
    (data : Nat → List Nat) (n m : Nat) (battery : Option BatterySample)
    (samples : Nat → BatterySample)
    (hd : 0 < duration) (he : ∀ o ∈ obs, 0 ≤ o.elapsed) :
    ((∀ p ∈ (cpu_stress_test t1 duration obs).progress_trace, 0 ≤ p ∧ p ≤ 100) ∧
      (cpu_stress_test t1 duration obs).progress = 100 ∧
      ((cpu_stress_test t1 duration obs).status = "Completed" ∨
        (cpu_stress_test t1 duration obs).status = "Stopped")) ∧
    ((∀ p ∈ (memory_test t2 data n).alloc_progress_trace, p ≤ 100) ∧
      (∀ p ∈ (memory_test t2 data n).verify_progress_trace, p ≤ 100) ∧
      (memory_test t2 data n).progress = 100 ∧
      ((memory_test t2 data n).status = "Completed" ∨
        (memory_test t2 data n).status = "Stopped")) ∧
    ((∀ s ∈ (disk_speed_test t3 m).steps, s.progress ≤ 100) ∧
      (disk_speed_test t3 m).progress = 100 ∧
      ((disk_speed_test t3 m).status = "Completed" ∨
        (disk_speed_test t3 m).status = "Stopped")) ∧
    ((∀ r ∈ (charging_test battery samples t4).polling_trace, r.progress ≤ 100) ∧
      (charging_test battery samples t4).progress = 100 ∧
      ((charging_test battery samples t4).status = "Completed" ∨
        (charging_test battery samples t4).status = "Stopped")) := by
  refine ⟨⟨?_, rfl, ?_⟩, ⟨?_, ?_, rfl, ?_⟩, ⟨?_, rfl, ?_⟩, ⟨?_, ?_, ?_⟩⟩
  · intro p hp
    rcases cpuMonitorLoop_trace_mem t1 duration hd obs
      { tick := 0, sample_count := 0, total_usage := 0, max_usage := 0
        progress := 0, progress_trace := [] } he p hp with hin | hbnd
    · simp at hin
    · exact hbnd
  · exact ite_completed_stopped _
  · intro p hp
    have hp' : p ∈ (memAlloc t2 data n (List.range n)
        { tick := 0, blocks := [], blocks_tested := 0, errors_found := 0
          progress := 0, alloc_trace := [], verify_trace := [] }).alloc_trace := by
      have heq : (memory_test t2 data n).alloc_progress_trace =
          (memAlloc t2 data n (List.range n)
            { tick := 0, blocks := [], blocks_tested := 0, errors_found := 0
              progress := 0, alloc_trace := [], verify_trace := [] }).alloc_trace := by
        show (memVerify t2 _ 0 _ _).alloc_trace = _
        rw [memVerify_alloc_trace_preserved]
      rw [heq] at hp
      exact hp
    rcases memAlloc_trace_mem t2 data n (List.range n) _
      (fun i hi => List.mem_range.mp hi) p hp' with hin | hbnd
    · simp at hin
    · omega
  · intro p hp
    have hempty : (memAlloc t2 data n (List.range n)
        { tick := 0, blocks := [], blocks_tested := 0, errors_found := 0
          progress := 0, alloc_trace := [], verify_trace := [] }).verify_trace = [] := by
      rw [memAlloc_verify_trace_preserved]
    rcases memVerify_trace_mem t2 _ _ 0 _ (by omega) p hp with hin | hbnd
    · rw [hempty] at hin
      simp at hin
    · omega
  · exact ite_completed_stopped _
  · intro s hs
    have h1 := diskLoop_steps_mem t3 m "read" 50 (List.range m) _
      (fun i hi => List.mem_range.mp hi) s hs
    rcases h1 with hin | hbnd
    · have h2 := diskLoop_steps_mem t3 m "write" 0 (List.range m)
        { tick := 0, progress := 0, steps := [] }
        (fun i hi => List.mem_range.mp hi) s hin
      rcases h2 with hin2 | hbnd2
      · simp at hin2
      · omega
    · omega
  · exact ite_completed_stopped _
  · intro r hr
    rcases battery with _ | b
    · simp [charging_test] at hr
    · exact monitorLoop_trace_mem samples t4 checks_total (List.range checks_total) _
        (fun k hk => List.mem_range.mp hk) r hr
  · rcases battery with _ | b <;> rfl
  · rcases battery with _ | b
    · exact Or.inl rfl
    · exact ite_completed_stopped _

/-- Witness for `progress_within_bounds_and_final`: concrete runs of all
four tests (duration 1s with one observation, 2 memory blocks, 3 disk
chunks, a plugged-in battery at 75%). -/
theorem progress_within_bounds_and_final_witness :
    (0 : ℚ) < 1 ∧
    ((∀ p ∈ (cpu_stress_test (fun _ => true) 1 [{ elapsed := 0, usage := 50 }]).progress_trace,
        0 ≤ p ∧ p ≤ 100) ∧
      (cpu_stress_test (fun _ => true) 1 [{ elapsed := 0, usage := 50 }]).progress = 100 ∧
      ((cpu_stress_test (fun _ => true) 1 [{ elapsed := 0, usage := 50 }]).status = "Completed" ∨
        (cpu_stress_test (fun _ => true) 1 [{ elapsed := 0, usage := 50 }]).status = "Stopped")) ∧
    ((∀ p ∈ (memory_test (fun _ => true) (fun _ => [7]) 2).alloc_progress_trace, p ≤ 100) ∧
      (∀ p ∈ (memory_test (fun _ => true) (fun _ => [7]) 2).verify_progress_trace, p ≤ 100) ∧
      (memory_test (fun _ => true) (fun _ => [7]) 2).progress = 100 ∧
      ((memory_test (fun _ => true) (fun _ => [7]) 2).status = "Completed" ∨
        (memory_test (fun _ => true) (fun _ => [7]) 2).status = "Stopped")) ∧
    ((∀ s ∈ (disk_speed_test (fun _ => true) 3).steps, s.progress ≤ 100) ∧
      (disk_speed_test (fun _ => true) 3).progress = 100 ∧
      ((disk_speed_test (fun _ => true) 3).status = "Completed" ∨
        (disk_speed_test (fun _ => true) 3).status = "Stopped")) ∧
    ((∀ r ∈ (charging_test (some { power_plugged := true, percent := 75 })
          (fun _ => { power_plugged := true, percent := 75 }) (fun _ => true)).polling_trace,
        r.progress ≤ 100) ∧
      (charging_test (some { power_plugged := true, percent := 75 })
        (fun _ => { power_plugged := true, percent := 75 }) (fun _ => true)).progress = 100 ∧
      ((charging_test (some { power_plugged := true, percent := 75 })
          (fun _ => { power_plugged := true, percent := 75 }) (fun _ => true)).status = "Completed" ∨
        (charging_test (some { power_plugged := true, percent := 75 })
          (fun _ => { power_plugged := true, percent := 75 }) (fun _ => true)).status = "Stopped")) :=
  ⟨one_pos,
    progress_within_bounds_and_final (fun _ => true) (fun _ => true) (fun _ => true)
      (fun _ => true) 1 [{ elapsed := 0, usage := 50 }] (fun _ => [7]) 2 3
      (some { power_plugged := true, percent := 75 })
      (fun _ => { power_plugged := true, percent := 75 })
      one_pos (by simp)⟩

end SystemTests

end PcChecker
